import Mathlib

/-!
Verification of the PythonFun_SWEngineer repository's test-automation
platform against its specification.

Part 1 embeds the power-supply serial driver
(`Tools/CMMscripts_HSDK/x_gel_to_cmm/PowerSupply_Lauterbach.pyw`):
the `connectSerial` retry loop and the `readVoltage` / `readCurrent`
GETD-response parsing.

Part 2 models the test execution engine (queue, dispatch, run controller,
capability registry, result ledger) from the specification, since that
code (`core/queue_manager.py` etc. of the Automotive ECU Tester) is only
described by the repository's documentation, not present as source.
-/

namespace PowerSupply

/-- Configuration constant from the source: `CONNECT_DEADLINE_SECONDS = 15.0`. -/
def CONNECT_DEADLINE_SECONDS : ℚ := 15

/-- Configuration constant from the source: `KILL_AFTER_SECONDS = 3.0`. -/
def KILL_AFTER_SECONDS : ℚ := 3

/-- Configuration constant from the source: the list of conflicting
process image names that `connectSerial` may kill once. -/
def KILL_PROCESS_NAMES : List String := ["CANoe.exe", "CANoe64.exe"]

/-- Environment of one iteration of `connectSerial`'s `while True` loop:
the wall-clock time elapsed since `start` as observed at the top of the
loop, the matching candidate ports (each `Bool` records whether
`_try_open_port` followed by `_query_getd` succeeds with a non-empty
response), and the elapsed time re-observed before the kill decision. -/
structure IterEnv where
  elapsedAtTop : ℚ
  candidates : List Bool
  elapsedAtKillCheck : ℚ
deriving Repr, DecidableEq

/-- Result of `connectSerial`: either an open serial handle (identified by
the loop iteration and the index of the candidate port that answered the
GETD query), or the integer sentinel `-1`. -/
inductive ConnectResult
  | handle (iter : Nat) (portIdx : Nat)
  | sentinelMinusOne
deriving Repr, DecidableEq

/-- The `for p in candidates` loop: index of the first candidate whose
open + GETD sanity check succeeds, if any. -/
def firstSuccess : List Bool → Option Nat
  | [] => none
  | true :: _ => some 0
  | false :: rest => (firstSuccess rest).map (fun i => i + 1)

/-- The body of `connectSerial`'s `while True` loop, one recursive call per
iteration, driven by the per-iteration environment list.  Returns the
result (`none` models only exhaustion of the supplied environment, not a
behaviour of the code) together with the number of times
`kill_processes_by_name` was invoked. -/
def connectLoop : List IterEnv → Nat → Bool → Option ConnectResult × Nat
  | [], _, _ => (none, 0)
  | e :: rest, iter, killAttempted =>
    if CONNECT_DEADLINE_SECONDS < e.elapsedAtTop then
      (some ConnectResult.sentinelMinusOne, 0)
    else if e.candidates.isEmpty then
      connectLoop rest (iter + 1) killAttempted
    else
      match firstSuccess e.candidates with
      | some i => (some (ConnectResult.handle iter i), 0)
      | none =>
        if killAttempted = false ∧ KILL_AFTER_SECONDS ≤ e.elapsedAtKillCheck ∧
            KILL_PROCESS_NAMES ≠ [] then
          let rk := connectLoop rest (iter + 1) true
          (rk.1, rk.2 + 1)
        else
          connectLoop rest (iter + 1) killAttempted

/-- `connectSerial(description)`: starts with `kill_attempted = False`. -/
def connectSerial (envs : List IterEnv) : Option ConnectResult × Nat :=
  connectLoop envs 0 false

/-- Python string slicing `s[a:b]` on the decoded, stripped response. -/
def pySlice (cs : List Char) (a b : Nat) : List Char :=
  (cs.drop a).take (b - a)

/-- Numeric value of a string of ASCII digits. -/
def digitsVal (cs : List Char) : Nat :=
  cs.foldl (fun acc c => 10 * acc + (c.toNat - 48)) 0

/-- The whitespace `int()` tolerates around the number.  CPython maps
non-ASCII Unicode whitespace to a space before parsing and its C parser
then accepts only the C-locale spaces, so the accepted set is TAB..CR
(U+0009..U+000D), space, NEL (U+0085), NBSP (U+00A0), OGHAM SPACE MARK
(U+1680), the U+2000..U+200A spaces, LINE/PARAGRAPH SEPARATOR
(U+2028/U+2029), NARROW NBSP (U+202F), MEDIUM MATHEMATICAL SPACE
(U+205F), and IDEOGRAPHIC SPACE (U+3000) — notably the ASCII separators
U+001C..U+001F are stripped by `str.strip()` but rejected by `int()`. -/
def pyWhitespace (c : Char) : Bool :=
  decide ((9 ≤ c.toNat ∧ c.toNat ≤ 13) ∨ c.toNat = 32 ∨
    c.toNat = 133 ∨ c.toNat = 160 ∨ c.toNat = 5760 ∨
    (8192 ≤ c.toNat ∧ c.toNat ≤ 8202) ∨ c.toNat = 8232 ∨ c.toNat = 8233 ∨
    c.toNat = 8239 ∨ c.toNat = 8287 ∨ c.toNat = 12288)

/-- Strip the leading and trailing whitespace that Python's `int`
tolerates around the number. -/
def stripPyWhitespace (cs : List Char) : List Char :=
  ((cs.dropWhile pyWhitespace).reverse.dropWhile pyWhitespace).reverse

/-- Continuation of a PEP 515 digit run after its first digit:
`(["_"] digit)*` — further digits with single underscores permitted only
between two digits — accumulating the base-10 value. -/
def digitTail : Nat → List Char → Option Nat
  | acc, [] => some acc
  | acc, c :: rest =>
    if c = '_' then
      match rest with
      | [] => none
      | c2 :: rest2 =>
        if c2.isDigit then digitTail (10 * acc + (c2.toNat - 48)) rest2 else none
    else if c.isDigit then digitTail (10 * acc + (c.toNat - 48)) rest
    else none

/-- Python's `digitpart ::= digit (["_"] digit)*` together with its
base-10 value; `none` where the run is empty or malformed. -/
def digitPart : List Char → Option Nat
  | [] => none
  | c :: rest => if c.isDigit then digitTail (c.toNat - 48) rest else none

/-- Python's `int(s)` on a base-10 string: surrounding whitespace is
stripped, then an optional single sign directly precedes a digit run
with single underscores permitted between digits (PEP 515); anything
else raises `ValueError`, modelled as `none`.  The model is exact for
strings of ASCII characters (which is what the power supply's GETD
responses contain); Python additionally accepts non-ASCII Unicode
decimal digits inside the run, so the raise-direction theorems below
restrict themselves to ASCII characters. -/
def pyInt? (cs0 : List Char) : Option Int :=
  match stripPyWhitespace cs0 with
  | [] => none
  | c :: ds =>
    if c = '+' then (digitPart ds).map (fun n => (n : Int))
    else if c = '-' then (digitPart ds).map (fun n => -(n : Int))
    else (digitPart (c :: ds)).map (fun n => (n : Int))

/-- `readVoltage`: `int(s[2:6]) / 100.0` on the decoded, stripped GETD
response `s`; `none` models the `int` conversion raising. -/
def readVoltage? (s : List Char) : Option ℚ :=
  (pyInt? (pySlice s 2 6)).map (fun v => (v : ℚ) / 100)

/-- `readCurrent`: `int(s[6:10]) / 100.0` on the decoded, stripped GETD
response `s`; `none` models the `int` conversion raising. -/
def readCurrent? (s : List Char) : Option ℚ :=
  (pyInt? (pySlice s 6 10)).map (fun v => (v : ℚ) / 100)

end PowerSupply

namespace TestEngine

/-- Modelled from the spec: test kinds, one of
`{FunctionTest, MacroScriptTest, BusModuleTest}` (spec §3, §4.2); the
engine's source (`core/queue_manager.py`) is not in the repository. -/
inductive TestKind
  | FunctionTest
  | MacroScriptTest
  | BusModuleTest
deriving Repr, DecidableEq

/-- Modelled from the spec: terminal statuses of a Run Record,
`{PASSED, FAILED, ERROR, CANCELLED, SKIPPED}` (spec §3). -/
inductive Status
  | PASSED
  | FAILED
  | ERROR
  | CANCELLED
  | SKIPPED
deriving Repr, DecidableEq

/-- Modelled from the spec: a Test Descriptor (spec §3) — unique id,
display name, kind, timeout duration. -/
structure Descriptor where
  id : Nat
  name : String
  kind : TestKind
  timeout : ℚ
deriving Repr, DecidableEq

/-- Modelled from the spec: the free-text message of a Run Record,
tagged by its cause; a timeout message carries the configured duration
that was exceeded (spec §7). -/
inductive RunMessage
  | passed
  | failed (reason : String)
  | errorRaised (msg : String)
  | timedOut (configuredTimeout : ℚ)
  | skippedAfterCancel
deriving Repr, DecidableEq

/-- Modelled from the spec: a Run Record (spec §3) — descriptor id,
terminal status, message, wall-clock duration. -/
structure RunRecord where
  descId : Nat
  status : Status
  message : RunMessage
  duration : ℚ
deriving Repr, DecidableEq

/-- Modelled from the spec: errors of the Test Queue contract (spec §4.1):
`InvalidStateError` on mutation while a run is active, `EmptyQueueError`
from `popNext` on an empty queue. -/
inductive QueueError
  | invalidState
  | emptyQueue
deriving Repr, DecidableEq

/-- Modelled from the spec: the Test Queue (spec §4.1) — an ordered,
mutable list of pending descriptors plus the session's run-active flag
that guards mutations. -/
structure TestQueue where
  items : List Descriptor
  runActive : Bool
deriving Repr, DecidableEq

/-- Modelled from the spec: `add(descriptor)` appends to the queue;
fails with `InvalidStateError` while a run is active (spec §4.1). -/
def TestQueue.add (q : TestQueue) (d : Descriptor) : Except QueueError TestQueue :=
  if q.runActive then Except.error QueueError.invalidState
  else Except.ok { q with items := q.items ++ [d] }

/-- Modelled from the spec: `remove(id)` deletes the descriptor with the
given id; fails with `InvalidStateError` while a run is active (spec §4.1). -/
def TestQueue.removeDesc (q : TestQueue) (i : Nat) : Except QueueError TestQueue :=
  if q.runActive then Except.error QueueError.invalidState
  else Except.ok { q with items := q.items.filter (fun d => d.id ≠ i) }

/-- Modelled from the spec: `reorder(id, newIndex)` moves the descriptor
with the given id to the new position; fails with `InvalidStateError`
while a run is active (spec §4.1). -/
def TestQueue.reorder (q : TestQueue) (i : Nat) (newIndex : Nat) :
    Except QueueError TestQueue :=
  if q.runActive then Except.error QueueError.invalidState
  else
    match q.items.find? (fun d => d.id = i) with
    | none => Except.ok q
    | some d =>
      Except.ok { q with items := (q.items.filter (fun d => d.id ≠ i)).insertIdx newIndex d }

/-- Modelled from the spec: `clear()` empties the queue; fails with
`InvalidStateError` while a run is active (spec §4.1). -/
def TestQueue.clear (q : TestQueue) : Except QueueError TestQueue :=
  if q.runActive then Except.error QueueError.invalidState
  else Except.ok { q with items := [] }

/-- Modelled from the spec: `popNext()` returns the head descriptor in
current order; fails with `EmptyQueueError` when nothing remains
(spec §4.1). -/
def TestQueue.popNext (q : TestQueue) : Except QueueError (Descriptor × TestQueue) :=
  match q.items with
  | [] => Except.error QueueError.emptyQueue
  | d :: rest => Except.ok (d, { q with items := rest })

/-- The four mutating queue operations of the §4.1 contract. -/
inductive QueueOp
  | add (d : Descriptor)
  | removeDesc (i : Nat)
  | reorder (i : Nat) (newIndex : Nat)
  | clear
deriving Repr

/-- Apply one mutating operation, as the §4.1 contract specifies. -/
def applyOp (op : QueueOp) (q : TestQueue) : Except QueueError TestQueue :=
  match op with
  | QueueOp.add d => q.add d
  | QueueOp.removeDesc i => q.removeDesc i
  | QueueOp.reorder i n => q.reorder i n
  | QueueOp.clear => q.clear

/-- Apply one mutating operation as a state transition: on failure the
queue is left unchanged and the error is reported alongside. -/
def applyOpState (op : QueueOp) (q : TestQueue) : TestQueue × Option QueueError :=
  match applyOp op q with
  | Except.ok q2 => (q2, none)
  | Except.error e => (q, some e)

/-- Apply a sequence of mutating operations, each leaving the queue
unchanged if it fails. -/
def applyOps (ops : List QueueOp) (q : TestQueue) : TestQueue :=
  match ops with
  | [] => q
  | op :: rest => applyOps rest (applyOpState op q).1

/-- Repeatedly call `popNext` until it fails, collecting the descriptors
in the order returned (fuelled by the queue length, which bounds the
number of successful pops). -/
def popAllAux : Nat → TestQueue → List Descriptor
  | 0, _ => []
  | n + 1, q =>
    match q.popNext with
    | Except.error _ => []
    | Except.ok (d, q2) => d :: popAllAux n q2

/-- The descriptor sequence observed by repeatedly calling `popNext`. -/
def popAll (q : TestQueue) : List Descriptor :=
  popAllAux q.items.length q

/-- Modelled from the spec: what a test's own execution yields to the
Dispatch strategy — a success sentinel, a failure sentinel with reason,
or a thrown error (spec §4.2, §6). -/
inductive TestOutcome
  | pass
  | fail (reason : String)
  | raised (msg : String)
deriving Repr, DecidableEq

/-- Modelled from the spec: a capability handle (spec §6); the engine's
Dispatch layer only uses its `abortAndReset()` operation, whose
invocation count we track. -/
structure CapHandle where
  abortResetCount : Nat
deriving Repr, DecidableEq

/-- Modelled from the spec: `Dispatch.execute(descriptor, registry,
timeout) -> RunRecord` (spec §4.2).  `blockingTime` is how long the
selected strategy actually runs (possibly blocked on hardware);
`outcome` is what the test itself would yield if it completes.  A
strategy that exceeds its timeout is abandoned and recorded as `ERROR`
with a timeout message, and `abortAndReset()` is called once on the
handle; otherwise the outcome maps to `PASSED`/`FAILED`/`ERROR`. -/
def dispatchExecute (d : Descriptor) (blockingTime : ℚ) (outcome : TestOutcome)
    (h : CapHandle) : RunRecord × CapHandle :=
  if d.timeout < blockingTime then
    ({ descId := d.id, status := Status.ERROR,
       message := RunMessage.timedOut d.timeout, duration := d.timeout },
     { h with abortResetCount := h.abortResetCount + 1 })
  else
    (match outcome with
     | TestOutcome.pass =>
       { descId := d.id, status := Status.PASSED,
         message := RunMessage.passed, duration := blockingTime }
     | TestOutcome.fail r =>
       { descId := d.id, status := Status.FAILED,
         message := RunMessage.failed r, duration := blockingTime }
     | TestOutcome.raised m =>
       { descId := d.id, status := Status.ERROR,
         message := RunMessage.errorRaised m, duration := blockingTime },
     h)

/-- Modelled from the spec: session states of the Run Controller state
machine `IDLE → RUNNING → {COMPLETED, ABORTED}` (spec §4.3). -/
inductive SessionState
  | IDLE
  | RUNNING
  | COMPLETED
  | ABORTED
deriving Repr, DecidableEq

/-- Run Record written for a descriptor skipped after cancellation. -/
def skippedRecord (d : Descriptor) : RunRecord :=
  { descId := d.id, status := Status.SKIPPED,
    message := RunMessage.skippedAfterCancel, duration := 0 }

/-- Modelled from the spec: the Run Controller loop (spec §4.3): pop the
next descriptor, execute it to completion via Dispatch, append its Run
Record, then check for a pending cancellation request — if present,
transition to `ABORTED` (never mid-test) and mark all remaining
descriptors `SKIPPED`.  `exec` is the Dispatch call; `cancelPending j`
says whether a cancellation request is pending at the check made after
the `j`-th executed test (1-indexed); `k` counts tests executed so far. -/
def runLoop (exec : Descriptor → RunRecord) (cancelPending : Nat → Bool) :
    List Descriptor → Nat → List RunRecord × SessionState
  | [], _ => ([], SessionState.COMPLETED)
  | d :: rest, k =>
    let r := exec d
    if cancelPending (k + 1) then
      (r :: rest.map skippedRecord, SessionState.ABORTED)
    else
      let rs := runLoop exec cancelPending rest (k + 1)
      (r :: rs.1, rs.2)

/-- A whole run: the controller starts with zero tests executed. -/
def runController (exec : Descriptor → RunRecord) (cancelPending : Nat → Bool)
    (ds : List Descriptor) : List RunRecord × SessionState :=
  runLoop exec cancelPending ds 0

/-- Modelled from the spec: `EngineFatalError` — a controller-level
failure unrelated to any single test (spec §7). -/
structure EngineFatalError where
  msg : String
deriving Repr, DecidableEq

/-- Modelled from the spec: the Run Controller loop where each execution
step may instead raise `EngineFatalError` (spec §4.3, §7).  Errors inside
a single test never take this branch — Dispatch contains them in an
`ERROR` Run Record — so `exec` returns `Except.error` only for
controller-level failures, which abort the run while preserving all Run
Records gathered so far. -/
def runLoopF (exec : Descriptor → Except EngineFatalError RunRecord) :
    List Descriptor → List RunRecord × SessionState
  | [] => ([], SessionState.COMPLETED)
  | d :: rest =>
    match exec d with
    | Except.error _ => ([], SessionState.ABORTED)
    | Except.ok r =>
      let rs := runLoopF exec rest
      (r :: rs.1, rs.2)

/-- Modelled from the spec: the device classes of the Capability Registry
(spec §2): power supply, tracer, serial terminals, camera, bus simulator. -/
inductive DeviceClass
  | power
  | tracer
  | terminal (n : Nat)
  | camera
  | busSim
deriving Repr, DecidableEq

/-- Modelled from the spec: `DeviceUnavailableError` — the capability was
never connected (spec §4.4, §7). -/
inductive DeviceError
  | deviceUnavailable (dc : DeviceClass)
deriving Repr, DecidableEq

/-- Modelled from the spec: the Capability Registry (spec §4.4) — per
device class, either a connected handle or the recorded fact that the
device is unavailable. -/
structure Registry where
  handles : DeviceClass → Option CapHandle

/-- Modelled from the spec: Registry construction at session start
attempts to connect every configured device; `connectResult dc` is the
outcome of that attempt (`none` = the connection failed).  A failed
device is recorded as unavailable; construction is total, so a failure
never blocks session start (spec §4.4). -/
def buildRegistry (connectResult : DeviceClass → Option CapHandle) : Registry :=
  { handles := fun dc => connectResult dc }

/-- Modelled from the spec: `get(deviceClass) -> Handle`, fails with
`DeviceUnavailableError` if the device was never connected (spec §4.4). -/
def Registry.get (r : Registry) (dc : DeviceClass) : Except DeviceError CapHandle :=
  match r.handles dc with
  | none => Except.error (DeviceError.deviceUnavailable dc)
  | some h => Except.ok h

/-- Modelled from the spec: the Result Ledger — an append-only sequence
of Run Records (spec §4.6). -/
structure Ledger where
  records : List RunRecord
deriving Repr, DecidableEq

/-- Appending a Run Record on test completion (spec §4.6). -/
def Ledger.append (l : Ledger) (r : RunRecord) : Ledger :=
  { records := l.records ++ [r] }

/-- Modelled from the spec: the read-only summary — total, passed,
failed, error, cancelled, skipped counts, and total wall-clock duration
(spec §4.6). -/
structure Summary where
  total : Nat
  passed : Nat
  failed : Nat
  errored : Nat
  cancelled : Nat
  skipped : Nat
  duration : ℚ
deriving Repr, DecidableEq

/-- Compute the summary from the record sequence alone. -/
def computeSummary (rs : List RunRecord) : Summary :=
  { total := rs.length
    passed := (rs.filter (fun r => r.status = Status.PASSED)).length
    failed := (rs.filter (fun r => r.status = Status.FAILED)).length
    errored := (rs.filter (fun r => r.status = Status.ERROR)).length
    cancelled := (rs.filter (fun r => r.status = Status.CANCELLED)).length
    skipped := (rs.filter (fun r => r.status = Status.SKIPPED)).length
    duration := (rs.map (fun r => r.duration)).sum }

/-- Modelled from the spec: `getSummary()` — a read-only accessor,
returned together with the (unchanged) ledger state (spec §4.6, §8). -/
def getSummary (l : Ledger) : Summary × Ledger :=
  (computeSummary l.records, l)

/-- Events of a run, for the shared-resource model (spec §5): a test
starts using the capability handles, or finishes with them. -/
inductive RunEvent
  | started (descId : Nat)
  | finished (descId : Nat)
deriving Repr, DecidableEq

/-- Modelled from the spec: the event trace generated by the Run
Controller's single worker (spec §5): each executed test is started and
finished before the cancellation check; skipped descriptors never start. -/
def traceLoop (cancelPending : Nat → Bool) :
    List Descriptor → Nat → List RunEvent
  | [], _ => []
  | d :: rest, k =>
    RunEvent.started d.id :: RunEvent.finished d.id ::
      (if cancelPending (k + 1) then [] else traceLoop cancelPending rest (k + 1))

/-- The ids of the tests that are `RUNNING` (started but not finished)
after a sequence of events — the current users of the hardware handles. -/
def runningAfter (es : List RunEvent) : List Nat :=
  es.foldl
    (fun acc e =>
      match e with
      | RunEvent.started i => acc ++ [i]
      | RunEvent.finished i => acc.filter (fun j => j ≠ i))
    []

end TestEngine

namespace TestEngine

/-- Fuelled draining agrees with the item list whenever the fuel covers it. -/
theorem popAllAux_eq_items (n : Nat) :
    ∀ q : TestQueue, q.items.length ≤ n → popAllAux n q = q.items := by
  induction n with
  | zero =>
    intro q hq
    have : q.items = [] := List.eq_nil_of_length_eq_zero (Nat.le_zero.mp hq)
    simp [popAllAux, this]
  | succ n ih =>
    intro q hq
    match hit : q.items with
    | [] => simp [popAllAux, TestQueue.popNext, hit]
    | d :: rest =>
      have hlen : rest.length ≤ n := by
        have := hq
        rw [hit] at this
        simpa using Nat.lt_succ_iff.mp (Nat.lt_of_lt_of_le (Nat.lt_succ_self _) this)
      simp [popAllAux, TestQueue.popNext, hit, ih { q with items := rest } hlen]

/-- Draining any queue by `popNext` yields exactly its current items. -/
theorem popAll_eq_items (q : TestQueue) : popAll q = q.items :=
  popAllAux_eq_items q.items.length q (Nat.le_refl _)

/-- C2: for every queue and every sequence of add/remove/reorder/clear
operations performed while no run is active, repeated `popNext()` calls
return the descriptors in exactly the order established by that
sequence (the queue's resulting item order), and `popNext()` fails with
`EmptyQueueError` exactly when the queue is empty. -/
theorem popNext_returns_current_order (ops : List QueueOp) (q0 : TestQueue)
    (hidle : q0.runActive = false) :
    popAll (applyOps ops q0) = (applyOps ops q0).items ∧
    ((applyOps ops q0).popNext = Except.error QueueError.emptyQueue ↔
      (applyOps ops q0).items = []) := by
  constructor
  · exact popAll_eq_items _
  · constructor
    · intro h
      match hit : (applyOps ops q0).items with
      | [] => rfl
      | d :: rest => simp [TestQueue.popNext, hit] at h
    · intro h
      simp [TestQueue.popNext, h]

/-- Witness for C2: two adds followed by a reorder, starting from an idle
empty queue; popping returns exactly the reordered sequence, and the
emptiness criterion holds. -/
theorem popNext_returns_current_order_witness :
    popAll (applyOps
        [QueueOp.add ⟨1, "a", TestKind.FunctionTest, 1⟩,
         QueueOp.add ⟨2, "b", TestKind.MacroScriptTest, 1⟩,
         QueueOp.reorder 2 0]
        ⟨[], false⟩) =
      (applyOps
        [QueueOp.add ⟨1, "a", TestKind.FunctionTest, 1⟩,
         QueueOp.add ⟨2, "b", TestKind.MacroScriptTest, 1⟩,
         QueueOp.reorder 2 0]
        ⟨[], false⟩).items ∧
    ((applyOps
        [QueueOp.add ⟨1, "a", TestKind.FunctionTest, 1⟩,
         QueueOp.add ⟨2, "b", TestKind.MacroScriptTest, 1⟩,
         QueueOp.reorder 2 0]
        ⟨[], false⟩).popNext = Except.error QueueError.emptyQueue ↔
      (applyOps
        [QueueOp.add ⟨1, "a", TestKind.FunctionTest, 1⟩,
         QueueOp.add ⟨2, "b", TestKind.MacroScriptTest, 1⟩,
         QueueOp.reorder 2 0]
        ⟨[], false⟩).items = []) :=
  popNext_returns_current_order
    [QueueOp.add ⟨1, "a", TestKind.FunctionTest, 1⟩,
     QueueOp.add ⟨2, "b", TestKind.MacroScriptTest, 1⟩,
     QueueOp.reorder 2 0]
    ⟨[], false⟩ rfl

/-- C5: every mutating queue operation (add, remove, reorder, clear)
invoked while a run is active fails with `InvalidStateError` and leaves
the queue contents unchanged. -/
theorem mutation_while_running_fails (op : QueueOp) (q : TestQueue)
    (hrun : q.runActive = true) :
    applyOpState op q = (q, some QueueError.invalidState) := by
  cases op <;>
    simp [applyOpState, applyOp, TestQueue.add, TestQueue.removeDesc,
      TestQueue.reorder, TestQueue.clear, hrun]

/-- Witness for C5: a `clear` issued while a run is active on a one-element
queue fails with `InvalidStateError` and leaves the queue unchanged. -/
theorem mutation_while_running_fails_witness :
    applyOpState QueueOp.clear ⟨[⟨1, "a", TestKind.FunctionTest, 1⟩], true⟩ =
      (⟨[⟨1, "a", TestKind.FunctionTest, 1⟩], true⟩, some QueueError.invalidState) :=
  mutation_while_running_fails QueueOp.clear
    ⟨[⟨1, "a", TestKind.FunctionTest, 1⟩], true⟩ rfl

/-- C1: whenever the selected execution strategy blocks longer than the
descriptor's configured timeout, `Dispatch.execute` produces exactly one
Run Record (it returns a single record by construction) with terminal
status `ERROR` and a message reporting the configured timeout, and
`abortAndReset()` is invoked exactly once on the capability handle
(its invocation count rises by exactly one). -/
theorem dispatch_timeout_single_error_record (d : Descriptor) (blockingTime : ℚ)
    (outcome : TestOutcome) (h : CapHandle) (hto : d.timeout < blockingTime) :
    (dispatchExecute d blockingTime outcome h).1.descId = d.id ∧
    (dispatchExecute d blockingTime outcome h).1.status = Status.ERROR ∧
    (dispatchExecute d blockingTime outcome h).1.message =
      RunMessage.timedOut d.timeout ∧
    (dispatchExecute d blockingTime outcome h).2.abortResetCount =
      h.abortResetCount + 1 := by
  simp [dispatchExecute, hto]

/-- Witness for C1: a FunctionTest with a 1-second timeout that blocks for
5 seconds yields exactly one ERROR record with the timeout message, and
the handle's abort/reset count goes from 0 to 1. -/
theorem dispatch_timeout_single_error_record_witness :
    (dispatchExecute ⟨7, "blocker", TestKind.FunctionTest, 1⟩ 5
        TestOutcome.pass ⟨0⟩).1.descId = 7 ∧
    (dispatchExecute ⟨7, "blocker", TestKind.FunctionTest, 1⟩ 5
        TestOutcome.pass ⟨0⟩).1.status = Status.ERROR ∧
    (dispatchExecute ⟨7, "blocker", TestKind.FunctionTest, 1⟩ 5
        TestOutcome.pass ⟨0⟩).1.message = RunMessage.timedOut 1 ∧
    (dispatchExecute ⟨7, "blocker", TestKind.FunctionTest, 1⟩ 5
        TestOutcome.pass ⟨0⟩).2.abortResetCount = 0 + 1 :=
  dispatch_timeout_single_error_record ⟨7, "blocker", TestKind.FunctionTest, 1⟩ 5
    TestOutcome.pass ⟨0⟩ (by decide)

/-- C6: registry construction attempts to connect every device class; a
device whose connection attempt failed is recorded as unavailable
(construction itself is total, so one bad device never blocks session
start), and `get` on a device that was never connected fails with
`DeviceUnavailableError` instead of returning a handle, while `get` on a
connected device returns its handle. -/
theorem registry_unavailable_contract
    (connectResult : DeviceClass → Option CapHandle) (dc : DeviceClass) :
    ((buildRegistry connectResult).handles dc = connectResult dc) ∧
    (connectResult dc = none →
      (buildRegistry connectResult).get dc =
        Except.error (DeviceError.deviceUnavailable dc)) ∧
    (∀ h : CapHandle, connectResult dc = some h →
      (buildRegistry connectResult).get dc = Except.ok h) := by
  refine ⟨rfl, ?_, ?_⟩
  · intro hnone
    simp [Registry.get, buildRegistry, hnone]
  · intro h hsome
    simp [Registry.get, buildRegistry, hsome]

/-- Witness for C6: with only the power supply connecting successfully,
`get` on the camera (never connected) fails with `DeviceUnavailableError`
and `get` on the power supply returns its handle. -/
theorem registry_unavailable_contract_witness :
    ((buildRegistry fun dc => if dc = DeviceClass.power then some ⟨0⟩ else none).get
        DeviceClass.camera =
      Except.error (DeviceError.deviceUnavailable DeviceClass.camera)) ∧
    ((buildRegistry fun dc => if dc = DeviceClass.power then some ⟨0⟩ else none).get
        DeviceClass.power = Except.ok ⟨0⟩) :=
  ⟨(registry_unavailable_contract
      (fun dc => if dc = DeviceClass.power then some ⟨0⟩ else none)
      DeviceClass.camera).2.1 rfl,
   (registry_unavailable_contract
      (fun dc => if dc = DeviceClass.power then some ⟨0⟩ else none)
      DeviceClass.power).2.2 ⟨0⟩ rfl⟩

/-- C8: `getSummary()` is read-only (it returns the ledger unchanged), so
two calls with no intervening test completion return identical counts and
duration; `append` only ever extends the record sequence, leaving every
previously appended record unchanged; and the summary is a function of
the appended record sequence alone. -/
theorem summary_idempotent_append_only (l l2 : Ledger) (r : RunRecord) :
    ((getSummary l).2 = l) ∧
    ((getSummary ((getSummary l).2)).1 = (getSummary l).1) ∧
    ((l.append r).records = l.records ++ [r]) ∧
    (l.records = l2.records → (getSummary l).1 = (getSummary l2).1) := by
  refine ⟨rfl, rfl, rfl, ?_⟩
  intro hrec
  simp [getSummary, hrec]

/-- Witness for C8: on a concrete one-record ledger, `getSummary` twice
gives the same summary, `append` extends the records, and two ledgers
with equal records have equal summaries. -/
theorem summary_idempotent_append_only_witness :
    ((getSummary ⟨[⟨1, Status.PASSED, RunMessage.passed, 2⟩]⟩).2 =
      (⟨[⟨1, Status.PASSED, RunMessage.passed, 2⟩]⟩ : Ledger)) ∧
    ((getSummary ((getSummary ⟨[⟨1, Status.PASSED, RunMessage.passed, 2⟩]⟩).2)).1 =
      (getSummary ⟨[⟨1, Status.PASSED, RunMessage.passed, 2⟩]⟩).1) ∧
    ((Ledger.append ⟨[⟨1, Status.PASSED, RunMessage.passed, 2⟩]⟩
        ⟨2, Status.FAILED, RunMessage.failed "f", 1⟩).records =
      [⟨1, Status.PASSED, RunMessage.passed, 2⟩] ++
        [⟨2, Status.FAILED, RunMessage.failed "f", 1⟩]) ∧
    ((⟨[⟨1, Status.PASSED, RunMessage.passed, 2⟩]⟩ : Ledger).records =
        (⟨[⟨1, Status.PASSED, RunMessage.passed, 2⟩]⟩ : Ledger).records →
      (getSummary ⟨[⟨1, Status.PASSED, RunMessage.passed, 2⟩]⟩).1 =
        (getSummary ⟨[⟨1, Status.PASSED, RunMessage.passed, 2⟩]⟩).1) :=
  summary_idempotent_append_only ⟨[⟨1, Status.PASSED, RunMessage.passed, 2⟩]⟩
    ⟨[⟨1, Status.PASSED, RunMessage.passed, 2⟩]⟩
    ⟨2, Status.FAILED, RunMessage.failed "f", 1⟩

/-- Generalized cancellation lemma for the Run Controller loop: if no
cancellation is pending at the checks after tests `k0+1 .. k-1` but one
is pending at the check after test `k`, the loop executes exactly the
first `k - k0` descriptors, skips the rest, and aborts. -/
theorem runLoop_cancel (exec : Descriptor → RunRecord) (cancelPending : Nat → Bool)
    (k : Nat) (hat : cancelPending k = true) :
    ∀ (ds : List Descriptor) (k0 : Nat),
      (∀ j, k0 < j → j < k → cancelPending j = false) →
      k0 < k → k ≤ k0 + ds.length →
      runLoop exec cancelPending ds k0 =
        ((ds.take (k - k0)).map exec ++ (ds.drop (k - k0)).map skippedRecord,
         SessionState.ABORTED) := by
  intro ds
  induction ds with
  | nil =>
    intro k0 _ hlt hle
    simp at hle
    omega
  | cons d rest ih =>
    intro k0 hbefore hlt hle
    by_cases hk : k = k0 + 1
    · have hcp : cancelPending (k0 + 1) = true := hk ▸ hat
      have hsub : k - k0 = 1 := by omega
      simp [runLoop, hcp, hsub]
    · have hk1 : k0 + 1 < k := by omega
      have hcp : cancelPending (k0 + 1) = false :=
        hbefore (k0 + 1) (Nat.lt_succ_self k0) hk1
      have hrec := ih (k0 + 1)
        (fun j hj1 hj2 => hbefore j (Nat.lt_of_succ_lt hj1) hj2) hk1
        (by simp at hle ⊢; omega)
      have hsub : k - k0 = (k - (k0 + 1)) + 1 := by omega
      simp only [runLoop, hcp, Bool.false_eq_true, if_false, hrec, hsub,
        List.take_succ_cons, List.drop_succ_cons, List.map_cons, List.cons_append]

/-- C3: if a cancellation request is pending for the first time at the
check made after executing test `k` of `n` (i.e. it arrived while
descriptor `k` was RUNNING), the Run Controller finishes descriptor `k`
(its full Dispatch record is appended, never an aborted partial one),
records the execution outcome for descriptors `1..k`, records `SKIPPED`
for descriptors `k+1..n`, and transitions the session to `ABORTED`;
provided Dispatch never labels an executed test `SKIPPED`, the first `k`
records all carry non-`SKIPPED` terminal statuses. -/
theorem cancellation_finishes_current_and_skips_rest
    (exec : Descriptor → RunRecord) (cancelPending : Nat → Bool)
    (ds : List Descriptor) (k : Nat)
    (hterm : ∀ d, (exec d).status ≠ Status.SKIPPED)
    (h1 : 1 ≤ k) (h2 : k ≤ ds.length)
    (hbefore : ∀ j, 0 < j → j < k → cancelPending j = false)
    (hat : cancelPending k = true) :
    runController exec cancelPending ds =
      ((ds.take k).map exec ++ (ds.drop k).map skippedRecord,
       SessionState.ABORTED) ∧
    (∀ r ∈ (ds.take k).map exec, r.status ≠ Status.SKIPPED) ∧
    (∀ r ∈ (ds.drop k).map skippedRecord, r.status = Status.SKIPPED) := by
  refine ⟨?_, ?_, ?_⟩
  · have := runLoop_cancel exec cancelPending k hat ds 0 hbefore h1 (by omega)
    simpa [runController] using this
  · intro r hr
    rcases List.mem_map.mp hr with ⟨d, _, rfl⟩
    exact hterm d
  · intro r hr
    rcases List.mem_map.mp hr with ⟨d, _, rfl⟩
    rfl

/-- Witness for C3: cancelling while test 2 of 5 is RUNNING (the request
is pending from the check after test 2 onward) yields the records of
tests 1 and 2 followed by three SKIPPED records, and the session aborts. -/
theorem cancellation_finishes_current_and_skips_rest_witness :
    runController (fun d => (⟨d.id, Status.PASSED, RunMessage.passed, 1⟩ : RunRecord))
        (fun j => decide (2 ≤ j))
        [⟨1, "t", TestKind.FunctionTest, 1⟩, ⟨2, "t", TestKind.FunctionTest, 1⟩,
         ⟨3, "t", TestKind.FunctionTest, 1⟩, ⟨4, "t", TestKind.FunctionTest, 1⟩,
         ⟨5, "t", TestKind.FunctionTest, 1⟩] =
      ((([⟨1, "t", TestKind.FunctionTest, 1⟩, ⟨2, "t", TestKind.FunctionTest, 1⟩,
         ⟨3, "t", TestKind.FunctionTest, 1⟩, ⟨4, "t", TestKind.FunctionTest, 1⟩,
         ⟨5, "t", TestKind.FunctionTest, 1⟩] : List Descriptor).take 2).map
          (fun d => (⟨d.id, Status.PASSED, RunMessage.passed, 1⟩ : RunRecord)) ++
       ([⟨1, "t", TestKind.FunctionTest, 1⟩, ⟨2, "t", TestKind.FunctionTest, 1⟩,
         ⟨3, "t", TestKind.FunctionTest, 1⟩, ⟨4, "t", TestKind.FunctionTest, 1⟩,
         ⟨5, "t", TestKind.FunctionTest, 1⟩].drop 2).map skippedRecord,
       SessionState.ABORTED) :=
  (cancellation_finishes_current_and_skips_rest
    (fun d => (⟨d.id, Status.PASSED, RunMessage.passed, 1⟩ : RunRecord))
    (fun j => decide (2 ≤ j))
    [⟨1, "t", TestKind.FunctionTest, 1⟩, ⟨2, "t", TestKind.FunctionTest, 1⟩,
     ⟨3, "t", TestKind.FunctionTest, 1⟩, ⟨4, "t", TestKind.FunctionTest, 1⟩,
     ⟨5, "t", TestKind.FunctionTest, 1⟩] 2
    (fun _ => by show Status.PASSED ≠ Status.SKIPPED; decide)
    (by decide) (by decide)
    (fun j _ hj => by
      simp only [decide_eq_false_iff_not]
      omega)
    (by decide)).1

/-- C4: an error raised inside an individual test is contained by
Dispatch into that test's own `ERROR` Run Record (first conjunct), so a
run whose every step yields a record proceeds through all descriptors
and completes (second conjunct); only an `EngineFatalError` aborts the
run, and when one strikes at some position every Run Record appended
before it is preserved unchanged in the ledger (third conjunct). -/
theorem test_errors_contained_fatal_preserves_ledger
    (exec : Descriptor → Except EngineFatalError RunRecord)
    (f : Descriptor → RunRecord) (ds ds1 ds2 : List Descriptor)
    (dm : Descriptor) (e : EngineFatalError) :
    (∀ (d : Descriptor) (t : ℚ) (m : String) (h : CapHandle),
      (dispatchExecute d t (TestOutcome.raised m) h).1.status = Status.ERROR) ∧
    ((∀ d, exec d = Except.ok (f d)) →
      runLoopF exec ds = (ds.map f, SessionState.COMPLETED)) ∧
    ((∀ d ∈ ds1, exec d = Except.ok (f d)) → exec dm = Except.error e →
      runLoopF exec (ds1 ++ dm :: ds2) = (ds1.map f, SessionState.ABORTED)) := by
  refine ⟨?_, ?_, ?_⟩
  · intro d t m h
    by_cases hto : d.timeout < t <;> simp [dispatchExecute, hto]
  · intro hok
    induction ds with
    | nil => rfl
    | cons d rest ih => simp [runLoopF, hok d, ih]
  · intro hok hfat
    induction ds1 with
    | nil => simp [runLoopF, hfat]
    | cons d rest ih =>
      have hd : exec d = Except.ok (f d) := hok d (by simp)
      have hrest : ∀ d2 ∈ rest, exec d2 = Except.ok (f d2) := by
        intro d2 hd2
        exact hok d2 (by simp [hd2])
      simp [runLoopF, hd, ih hrest]

/-- Witness for C4: with a fatal error striking on the third descriptor,
the records of the first two tests are preserved and the run aborts;
also, a raised test error with no timeout maps to an ERROR record. -/
theorem test_errors_contained_fatal_preserves_ledger_witness :
    (dispatchExecute ⟨9, "t", TestKind.FunctionTest, 10⟩ 1
        (TestOutcome.raised "boom") ⟨0⟩).1.status = Status.ERROR ∧
    runLoopF
        (fun d => if d.id = 3 then Except.error ⟨"fatal"⟩
          else Except.ok (⟨d.id, Status.PASSED, RunMessage.passed, 1⟩ : RunRecord))
        ([⟨1, "t", TestKind.FunctionTest, 1⟩, ⟨2, "t", TestKind.FunctionTest, 1⟩] ++
          ⟨3, "t", TestKind.FunctionTest, 1⟩ ::
            [⟨4, "t", TestKind.FunctionTest, 1⟩]) =
      (([⟨1, "t", TestKind.FunctionTest, 1⟩,
        ⟨2, "t", TestKind.FunctionTest, 1⟩] : List Descriptor).map
          (fun d => (⟨d.id, Status.PASSED, RunMessage.passed, 1⟩ : RunRecord)),
       SessionState.ABORTED) :=
  ⟨(test_errors_contained_fatal_preserves_ledger
      (fun d => if d.id = 3 then Except.error ⟨"fatal"⟩
        else Except.ok (⟨d.id, Status.PASSED, RunMessage.passed, 1⟩ : RunRecord))
      (fun d => (⟨d.id, Status.PASSED, RunMessage.passed, 1⟩ : RunRecord))
      [] [⟨1, "t", TestKind.FunctionTest, 1⟩, ⟨2, "t", TestKind.FunctionTest, 1⟩]
      [⟨4, "t", TestKind.FunctionTest, 1⟩]
      ⟨3, "t", TestKind.FunctionTest, 1⟩ ⟨"fatal"⟩).1
      ⟨9, "t", TestKind.FunctionTest, 10⟩ 1 "boom" ⟨0⟩,
   (test_errors_contained_fatal_preserves_ledger
      (fun d => if d.id = 3 then Except.error ⟨"fatal"⟩
        else Except.ok (⟨d.id, Status.PASSED, RunMessage.passed, 1⟩ : RunRecord))
      (fun d => (⟨d.id, Status.PASSED, RunMessage.passed, 1⟩ : RunRecord))
      [] [⟨1, "t", TestKind.FunctionTest, 1⟩, ⟨2, "t", TestKind.FunctionTest, 1⟩]
      [⟨4, "t", TestKind.FunctionTest, 1⟩]
      ⟨3, "t", TestKind.FunctionTest, 1⟩ ⟨"fatal"⟩).2.2
      (by intro d hd; fin_cases hd <;> rfl) rfl⟩

/-- A completed start/finish pair leaves no test running. -/
theorem runningAfter_startFinish (i : Nat) (l : List RunEvent) :
    runningAfter (RunEvent.started i :: RunEvent.finished i :: l) = runningAfter l := by
  simp [runningAfter, List.foldl, List.filter]

/-- Generalized single-user lemma: after any prefix of the run trace, at
most one test is started but not finished. -/
theorem runningAfter_take_le_one (cp : Nat → Bool) :
    ∀ (ds : List Descriptor) (k n : Nat),
      (runningAfter ((traceLoop cp ds k).take n)).length ≤ 1 := by
  intro ds
  induction ds with
  | nil =>
    intro k n
    simp [traceLoop, runningAfter]
  | cons d rest ih =>
    intro k n
    match n with
    | 0 => simp [runningAfter]
    | 1 =>
      simp [traceLoop, runningAfter, List.take, List.foldl]
    | Nat.succ (Nat.succ m) =>
      rw [show traceLoop cp (d :: rest) k =
            RunEvent.started d.id :: RunEvent.finished d.id ::
              (if cp (k + 1) then [] else traceLoop cp rest (k + 1)) from rfl]
      rw [List.take_succ_cons, List.take_succ_cons, runningAfter_startFinish]
      by_cases hcp : cp (k + 1)
      · simp [hcp, runningAfter]
      · rw [if_neg hcp]
        exact ih (k + 1) m

/-- C7: at every instant of a session's run (that is, after every prefix
of the event trace generated by the Run Controller's single worker), at
most one test is RUNNING — started but not finished — so no two tests
ever use a capability handle concurrently. -/
theorem at_most_one_concurrent_handle_user (cp : Nat → Bool)
    (ds : List Descriptor) (n : Nat) :
    (runningAfter ((traceLoop cp ds 0).take n)).length ≤ 1 :=
  runningAfter_take_le_one cp ds 0 n

end TestEngine

namespace PowerSupply

/-- The candidate index found by the for-loop model responded with a
non-empty GETD answer. -/
theorem firstSuccess_get (cs : List Bool) (i : Nat)
    (h : firstSuccess cs = some i) : cs.get? i = some true := by
  induction cs generalizing i with
  | nil => simp [firstSuccess] at h
  | cons b rest ih =>
    cases b with
    | true =>
      simp [firstSuccess] at h
      simp [← h]
    | false =>
      simp [firstSuccess] at h
      rcases h with ⟨j, hj, rfl⟩
      simpa using ih j hj

/-- Once the kill has been attempted, `connectSerial` never kills again. -/
theorem connectLoop_kill_done (envs : List IterEnv) :
    ∀ iter : Nat, (connectLoop envs iter true).2 = 0 := by
  induction envs with
  | nil => intro iter; rfl
  | cons e rest ih =>
    intro iter
    by_cases h1 : CONNECT_DEADLINE_SECONDS < e.elapsedAtTop
    · simp [connectLoop, h1]
    · by_cases h2 : e.candidates.isEmpty
      · simp [connectLoop, h1, h2, ih]
      · rcases h3 : firstSuccess e.candidates with _ | i
        · simp [connectLoop, h1, h2, h3, ih]
        · simp [connectLoop, h1, h2, h3]

/-- Starting with the kill not yet attempted, `connectSerial` kills the
conflicting processes at most once. -/
theorem connectLoop_kill_le_one (envs : List IterEnv) :
    ∀ iter : Nat, (connectLoop envs iter false).2 ≤ 1 := by
  induction envs with
  | nil => intro iter; simp [connectLoop]
  | cons e rest ih =>
    intro iter
    by_cases h1 : CONNECT_DEADLINE_SECONDS < e.elapsedAtTop
    · simp [connectLoop, h1]
    · by_cases h2 : e.candidates.isEmpty
      · simp [connectLoop, h1, h2, ih]
      · rcases h3 : firstSuccess e.candidates with _ | i
        · by_cases h4 : KILL_AFTER_SECONDS ≤ e.elapsedAtKillCheck ∧
            KILL_PROCESS_NAMES ≠ []
          · simp [connectLoop, h1, h2, h3, h4, connectLoop_kill_done]
          · simp [connectLoop, h1, h2, h3, h4, ih]
        · simp [connectLoop, h1, h2, h3]

/-- If some iteration observes the deadline exceeded, the loop returns a
result (a handle or the `-1` sentinel); it cannot run out of behaviour. -/
theorem connectLoop_total (envs : List IterEnv) :
    ∀ (iter : Nat) (ka : Bool),
      (∃ e ∈ envs, CONNECT_DEADLINE_SECONDS < e.elapsedAtTop) →
      (connectLoop envs iter ka).1 ≠ none := by
  induction envs with
  | nil =>
    intro iter ka h
    simp at h
  | cons e rest ih =>
    intro iter ka h
    by_cases h1 : CONNECT_DEADLINE_SECONDS < e.elapsedAtTop
    · simp [connectLoop, h1]
    · have hrest : ∃ e2 ∈ rest, CONNECT_DEADLINE_SECONDS < e2.elapsedAtTop := by
        rcases h with ⟨e2, he2, hgt⟩
        rcases List.mem_cons.mp he2 with rfl | hmem
        · exact absurd hgt h1
        · exact ⟨e2, hmem, hgt⟩
      by_cases h2 : e.candidates.isEmpty
      · simpa [connectLoop, h1, h2] using ih (iter + 1) ka hrest
      · rcases h3 : firstSuccess e.candidates with _ | i
        · by_cases h4 : ka = false ∧ KILL_AFTER_SECONDS ≤ e.elapsedAtKillCheck ∧
            KILL_PROCESS_NAMES ≠ []
          · simpa [connectLoop, h1, h2, h3, h4] using ih (iter + 1) true hrest
          · simpa [connectLoop, h1, h2, h3, h4] using ih (iter + 1) ka hrest
        · simp [connectLoop, h1, h2, h3]

/-- The `-1` sentinel is returned only after an iteration observed the
deadline exceeded. -/
theorem connectLoop_sentinel (envs : List IterEnv) :
    ∀ (iter : Nat) (ka : Bool),
      (connectLoop envs iter ka).1 = some ConnectResult.sentinelMinusOne →
      ∃ e ∈ envs, CONNECT_DEADLINE_SECONDS < e.elapsedAtTop := by
  induction envs with
  | nil =>
    intro iter ka h
    simp [connectLoop] at h
  | cons e rest ih =>
    intro iter ka h
    by_cases h1 : CONNECT_DEADLINE_SECONDS < e.elapsedAtTop
    · exact ⟨e, by simp, h1⟩
    · by_cases h2 : e.candidates.isEmpty
      · rw [show connectLoop (e :: rest) iter ka =
              connectLoop rest (iter + 1) ka by simp [connectLoop, h1, h2]] at h
        rcases ih (iter + 1) ka h with ⟨e2, hmem, hgt⟩
        exact ⟨e2, by simp [hmem], hgt⟩
      · rcases h3 : firstSuccess e.candidates with _ | i
        · by_cases h4 : ka = false ∧ KILL_AFTER_SECONDS ≤ e.elapsedAtKillCheck ∧
            KILL_PROCESS_NAMES ≠ []
          · rw [show (connectLoop (e :: rest) iter ka).1 =
                  (connectLoop rest (iter + 1) true).1 by
                simp [connectLoop, h1, h2, h3, h4]] at h
            rcases ih (iter + 1) true h with ⟨e2, hmem, hgt⟩
            exact ⟨e2, by simp [hmem], hgt⟩
          · rw [show (connectLoop (e :: rest) iter ka).1 =
                  (connectLoop rest (iter + 1) ka).1 by
                simp [connectLoop, h1, h2, h3, h4]] at h
            rcases ih (iter + 1) ka h with ⟨e2, hmem, hgt⟩
            exact ⟨e2, by simp [hmem], hgt⟩
        · simp [connectLoop, h1, h2, h3] at h

/-- A returned serial handle always points at an iteration whose
candidate port answered the GETD sanity query with a non-empty response. -/
theorem connectLoop_handle (envs : List IterEnv) :
    ∀ (iter : Nat) (ka : Bool) (it i : Nat),
      (connectLoop envs iter ka).1 = some (ConnectResult.handle it i) →
      iter ≤ it ∧
        ∃ e, envs.get? (it - iter) = some e ∧ e.candidates.get? i = some true := by
  induction envs with
  | nil =>
    intro iter ka it i h
    simp [connectLoop] at h
  | cons e rest ih =>
    intro iter ka it i h
    by_cases h1 : CONNECT_DEADLINE_SECONDS < e.elapsedAtTop
    · simp [connectLoop, h1] at h
    · by_cases h2 : e.candidates.isEmpty
      · rw [show connectLoop (e :: rest) iter ka =
              connectLoop rest (iter + 1) ka by simp [connectLoop, h1, h2]] at h
        rcases ih (iter + 1) ka it i h with ⟨hle, e2, hget, hcand⟩
        refine ⟨by omega, e2, ?_, hcand⟩
        rw [show it - iter = (it - (iter + 1)) + 1 by omega]
        simpa using hget
      · rcases h3 : firstSuccess e.candidates with _ | j
        · by_cases h4 : ka = false ∧ KILL_AFTER_SECONDS ≤ e.elapsedAtKillCheck ∧
            KILL_PROCESS_NAMES ≠ []
          · rw [show (connectLoop (e :: rest) iter ka).1 =
                  (connectLoop rest (iter + 1) true).1 by
                simp [connectLoop, h1, h2, h3, h4]] at h
            rcases ih (iter + 1) true it i h with ⟨hle, e2, hget, hcand⟩
            refine ⟨by omega, e2, ?_, hcand⟩
            rw [show it - iter = (it - (iter + 1)) + 1 by omega]
            simpa using hget
          · rw [show (connectLoop (e :: rest) iter ka).1 =
                  (connectLoop rest (iter + 1) ka).1 by
                simp [connectLoop, h1, h2, h3, h4]] at h
            rcases ih (iter + 1) ka it i h with ⟨hle, e2, hget, hcand⟩
            refine ⟨by omega, e2, ?_, hcand⟩
            rw [show it - iter = (it - (iter + 1)) + 1 by omega]
            simpa using hget
        · have : it = iter ∧ i = j := by
            simp [connectLoop, h1, h2, h3] at h
            exact ⟨h.1.symm, h.2.symm⟩
          rcases this with ⟨rfl, rfl⟩
          exact ⟨Nat.le_refl _, e, by simp, firstSuccess_get e.candidates i h3⟩

/-- C9: `connectSerial` never raises: the kill of conflicting processes
is attempted at most once per invocation; whenever some loop iteration
observes the 15.0-second connect deadline exceeded the call returns a
value (it cannot fail to answer); the `-1` sentinel is returned only
once the deadline has elapsed without a successful connection; and a
returned serial handle always belongs to a matched candidate port whose
GETD query produced a non-empty response. -/
theorem connectSerial_deadline_contract (envs : List IterEnv) :
    (connectSerial envs).2 ≤ 1 ∧
    ((∃ e ∈ envs, CONNECT_DEADLINE_SECONDS < e.elapsedAtTop) →
      (connectSerial envs).1 ≠ none) ∧
    ((connectSerial envs).1 = some ConnectResult.sentinelMinusOne →
      ∃ e ∈ envs, CONNECT_DEADLINE_SECONDS < e.elapsedAtTop) ∧
    (∀ it i, (connectSerial envs).1 = some (ConnectResult.handle it i) →
      ∃ e, envs.get? it = some e ∧ e.candidates.get? i = some true) := by
  refine ⟨connectLoop_kill_le_one envs 0, connectLoop_total envs 0 false,
    connectLoop_sentinel envs 0 false, ?_⟩
  intro it i h
  rcases connectLoop_handle envs 0 false it i h with ⟨_, e, hget, hcand⟩
  exact ⟨e, by simpa using hget, hcand⟩

/-- Witness for C9: one iteration that starts 16 s after `start` (past the
15 s deadline) with no candidate port in sight yields a definite result,
and the kill was attempted at most once. -/
theorem connectSerial_deadline_contract_witness :
    (connectSerial [⟨16, [], 16⟩]).2 ≤ 1 ∧
    (connectSerial [⟨16, [], 16⟩]).1 ≠ none :=
  ⟨(connectSerial_deadline_contract [⟨16, [], 16⟩]).1,
   (connectSerial_deadline_contract [⟨16, [], 16⟩]).2.1
     ⟨⟨16, [], 16⟩, by simp, by decide⟩⟩

/-- An ASCII digit's code point lies between 48 and 57. -/
theorem isDigit_toNat_bounds (c : Char) (h : c.isDigit = true) :
    48 ≤ c.toNat ∧ c.toNat ≤ 57 := by
  simp [Char.isDigit] at h
  exact h

/-- A digit is not Python whitespace. -/
theorem pyWhitespace_of_isDigit (c : Char) (h : c.isDigit = true) :
    pyWhitespace c = false := by
  have hb := isDigit_toNat_bounds c h
  simp [pyWhitespace]
  omega

/-- A list containing no Python whitespace is unchanged by a leading
whitespace-strip. -/
theorem dropWhile_ws_of_no_ws (l : List Char)
    (h : ∀ c ∈ l, pyWhitespace c = false) :
    l.dropWhile pyWhitespace = l := by
  cases l with
  | nil => rfl
  | cons a l =>
    simp [List.dropWhile_cons, h a (by simp)]

/-- A list containing no Python whitespace is unchanged by
`stripPyWhitespace`. -/
theorem stripPyWhitespace_of_no_ws (cs : List Char)
    (h : ∀ c ∈ cs, pyWhitespace c = false) :
    stripPyWhitespace cs = cs := by
  unfold stripPyWhitespace
  rw [dropWhile_ws_of_no_ws cs h,
    dropWhile_ws_of_no_ws cs.reverse
      (fun c hc => h c (List.mem_reverse.mp hc)),
    List.reverse_reverse]

/-- A non-whitespace element survives a leading whitespace-strip. -/
theorem mem_dropWhile_ws (l : List Char) (c : Char)
    (hc : c ∈ l) (hne : pyWhitespace c = false) :
    c ∈ l.dropWhile pyWhitespace := by
  induction l with
  | nil => simp at hc
  | cons a l ih =>
    by_cases ha : pyWhitespace a = true
    · rcases List.mem_cons.mp hc with rfl | hmem
      · rw [ha] at hne
        exact absurd hne (by simp)
      · simpa [List.dropWhile_cons, ha] using ih hmem
    · simpa [List.dropWhile_cons, ha] using hc

/-- A non-whitespace element survives `stripPyWhitespace`. -/
theorem mem_stripPyWhitespace (cs : List Char) (c : Char)
    (hc : c ∈ cs) (hne : pyWhitespace c = false) :
    c ∈ stripPyWhitespace cs := by
  unfold stripPyWhitespace
  rw [List.mem_reverse]
  exact mem_dropWhile_ws _ c
    (List.mem_reverse.mpr (mem_dropWhile_ws _ c hc hne)) hne

/-- On an all-digit continuation the PEP 515 run accepts every character
and folds up the base-10 value. -/
theorem digitTail_all_digits (ds : List Char) :
    ∀ acc : Nat, (∀ c ∈ ds, c.isDigit = true) →
      digitTail acc ds =
        some (ds.foldl (fun a c => 10 * a + (c.toNat - 48)) acc) := by
  induction ds with
  | nil => intro acc _; rfl
  | cons c rest ih =>
    intro acc h
    have hc : c.isDigit = true := h c (by simp)
    have hne : ¬ c = '_' := by
      intro hu
      rw [hu] at hc
      exact absurd hc (by decide)
    rw [digitTail.eq_def]
    simp only [hne, if_false, hc, if_true]
    simpa using ih _ (fun x hx => h x (by simp [hx]))

/-- A non-empty all-digit run parses to its numeric value. -/
theorem digitPart_all_digits (cs : List Char) (hne : cs ≠ [])
    (h : ∀ c ∈ cs, c.isDigit = true) :
    digitPart cs = some (digitsVal cs) := by
  cases cs with
  | nil => exact absurd rfl hne
  | cons c rest =>
    have hc : c.isDigit = true := h c (by simp)
    simp [digitPart, hc, digitsVal]
    simpa using digitTail_all_digits rest (c.toNat - 48)
      (fun x hx => h x (by simp [hx]))

/-- A character that is neither a digit nor an underscore makes the
PEP 515 continuation fail wherever it occurs. -/
theorem digitTail_none_of_bad (c : Char) (hdig : ¬ c.isDigit = true)
    (hund : c ≠ '_') :
    ∀ (n : Nat) (l : List Char), l.length ≤ n → c ∈ l →
      ∀ acc : Nat, digitTail acc l = none := by
  intro n
  induction n with
  | zero =>
    intro l hl hc acc
    rw [List.eq_nil_of_length_eq_zero (Nat.le_zero.mp hl)] at hc
    simp at hc
  | succ n ih =>
    intro l hl hc acc
    cases l with
    | nil => simp at hc
    | cons a rest =>
      by_cases ha : a = '_'
      · subst ha
        cases rest with
        | nil => rw [digitTail.eq_def]; simp
        | cons c2 rest2 =>
          by_cases hc2 : c2.isDigit = true
          · have hcr : c ∈ rest2 := by
              rcases List.mem_cons.mp hc with rfl | hm
              · exact absurd rfl hund
              · rcases List.mem_cons.mp hm with rfl | hm2
                · exact absurd hc2 hdig
                · exact hm2
            rw [digitTail.eq_def]
            simp only [if_pos rfl, hc2, if_true]
            exact ih rest2 (by simp at hl; omega) hcr _
          · rw [digitTail.eq_def]
            simp [hc2]
      · by_cases hadig : a.isDigit = true
        · have hcr : c ∈ rest := by
            rcases List.mem_cons.mp hc with rfl | hm
            · exact absurd hadig hdig
            · exact hm
          rw [digitTail.eq_def]
          simp only [ha, if_false, hadig, if_true]
          exact ih rest (by simp at hl; omega) hcr _
        · rw [digitTail.eq_def]
          simp [ha, hadig]

/-- A character that is neither a digit nor an underscore makes the
whole digit run fail wherever it occurs. -/
theorem digitPart_none_of_bad (c : Char) (hdig : ¬ c.isDigit = true)
    (hund : c ≠ '_') (l : List Char) (hc : c ∈ l) :
    digitPart l = none := by
  cases l with
  | nil => rfl
  | cons a rest =>
    by_cases ha : a.isDigit = true
    · have hcr : c ∈ rest := by
        rcases List.mem_cons.mp hc with rfl | hm
        · exact absurd ha hdig
        · exact hm
      simp only [digitPart, ha, if_true]
      exact digitTail_none_of_bad c hdig hund rest.length rest
        (Nat.le_refl _) hcr _
    · simp [digitPart, ha]

/-- Python `int` succeeds on a non-empty all-digit string and returns its
numeric value. -/
theorem pyInt_digits (cs : List Char) (hne : cs ≠ [])
    (hdig : cs.all Char.isDigit = true) :
    pyInt? cs = some (digitsVal cs) := by
  have hall : ∀ c ∈ cs, c.isDigit = true := List.all_eq_true.mp hdig
  have hstrip : stripPyWhitespace cs = cs :=
    stripPyWhitespace_of_no_ws cs
      (fun c hc => pyWhitespace_of_isDigit c (hall c hc))
  cases cs with
  | nil => exact absurd rfl hne
  | cons c ds =>
    have hc : c.isDigit = true := hall c (by simp)
    have hplus : ¬ c = '+' := by
      intro hp
      rw [hp] at hc
      exact absurd hc (by decide)
    have hminus : ¬ c = '-' := by
      intro hm
      rw [hm] at hc
      exact absurd hc (by decide)
    simp [pyInt?, hstrip, hplus, hminus,
      digitPart_all_digits (c :: ds) (by simp) hall]

/-- Python `int` raises on a string containing an ASCII character that
is not a digit, a sign, an underscore, or whitespace. -/
theorem pyInt_none_of_badchar (cs : List Char) (c : Char) (hc : c ∈ cs)
    (hdig : ¬ c.isDigit = true) (hplus : c ≠ '+') (hminus : c ≠ '-')
    (hund : c ≠ '_') (hws : pyWhitespace c = false) :
    pyInt? cs = none := by
  have hmem : c ∈ stripPyWhitespace cs := mem_stripPyWhitespace cs c hc hws
  match hs : stripPyWhitespace cs with
  | [] =>
    rw [hs] at hmem
    simp at hmem
  | c0 :: ds =>
    rw [hs] at hmem
    by_cases h0p : c0 = '+'
    · have hcds : c ∈ ds := by
        rcases List.mem_cons.mp hmem with rfl | hmem2
        · exact absurd h0p hplus
        · exact hmem2
      simp [pyInt?, hs, h0p, digitPart_none_of_bad c hdig hund ds hcds]
    · by_cases h0m : c0 = '-'
      · have hcds : c ∈ ds := by
          rcases List.mem_cons.mp hmem with rfl | hmem2
          · exact absurd h0m hminus
          · exact hmem2
        simp [pyInt?, hs, h0p, h0m, digitPart_none_of_bad c hdig hund ds hcds]
      · simp [pyInt?, hs, h0p, h0m,
          digitPart_none_of_bad c hdig hund (c0 :: ds) hmem]

/-- Python `int` raises on the empty string. -/
theorem pyInt_nil : pyInt? [] = none := rfl

/-- C10 (amended): on the decoded, stripped GETD response `s`,
`readVoltage` returns `int(s[2:6]) / 100.0` and `readCurrent` returns
`int(s[6:10]) / 100.0` whenever the (end-truncated) slice is non-empty
and all digits; the `int` conversion raises exactly when the slice fails
to parse as a Python base-10 integer — in particular when the response
is so short that the slice is empty (length ≤ 2 for voltage, ≤ 6 for
current) or when the slice holds an ASCII character that is not a digit,
a sign, an underscore, or whitespace.  (A response shorter than the
nominal positions whose truncated slice is still all digits returns the
truncated value, not an error; underscores between digits and
surrounding whitespace are tolerated by `int`, per PEP 515 and
`Py_UNICODE_ISSPACE`.)  The ASCII bound `c.toNat ≤ 127` in the raise
conjuncts scopes them to the characters on which the model coincides
with Python, which additionally accepts non-ASCII Unicode decimal
digits. -/
theorem readVoltage_readCurrent_fixed_positions (s : List Char) :
    (pySlice s 2 6 ≠ [] → (pySlice s 2 6).all Char.isDigit = true →
      readVoltage? s = some ((digitsVal (pySlice s 2 6) : ℚ) / 100)) ∧
    (pySlice s 6 10 ≠ [] → (pySlice s 6 10).all Char.isDigit = true →
      readCurrent? s = some ((digitsVal (pySlice s 6 10) : ℚ) / 100)) ∧
    (s.length ≤ 2 → readVoltage? s = none) ∧
    (s.length ≤ 6 → readCurrent? s = none) ∧
    (∀ c ∈ pySlice s 2 6, c.toNat ≤ 127 → ¬ c.isDigit = true → c ≠ '+' →
      c ≠ '-' → c ≠ '_' → pyWhitespace c = false → readVoltage? s = none) ∧
    (∀ c ∈ pySlice s 6 10, c.toNat ≤ 127 → ¬ c.isDigit = true → c ≠ '+' →
      c ≠ '-' → c ≠ '_' → pyWhitespace c = false → readCurrent? s = none) := by
  refine ⟨?_, ?_, ?_, ?_, ?_, ?_⟩
  · intro hne hdig
    simp [readVoltage?, pyInt_digits _ hne hdig]
  · intro hne hdig
    simp [readCurrent?, pyInt_digits _ hne hdig]
  · intro hlen
    have hsl : pySlice s 2 6 = [] := by
      simp [pySlice, List.drop_eq_nil_of_le hlen]
    simp [readVoltage?, hsl, pyInt_nil]
  · intro hlen
    have hsl : pySlice s 6 10 = [] := by
      simp [pySlice, List.drop_eq_nil_of_le hlen]
    simp [readCurrent?, hsl, pyInt_nil]
  · intro c hc _ hdig hplus hminus hund hws
    simp [readVoltage?,
      pyInt_none_of_badchar _ c hc hdig hplus hminus hund hws]
  · intro c hc _ hdig hplus hminus hund hws
    simp [readCurrent?,
      pyInt_none_of_badchar _ c hc hdig hplus hminus hund hws]

/-- Counterexample for C10 as stated: the claim says that for responses
shorter than the required positions the `int` conversion raises, but
`"CV123"` has length 5 < 6 and `readVoltage` nevertheless returns
`int("123") / 100.0 = 1.23`, because Python's slice `s[2:6]` silently
truncates at the end of the string. -/
theorem readVoltage_short_response_counterexample :
    (['C', 'V', '1', '2', '3'] : List Char).length < 6 ∧
    readVoltage? ['C', 'V', '1', '2', '3'] = some ((123 : ℚ) / 100) ∧
    readVoltage? ['C', 'V', '1', '2', '3'] ≠ none := by
  refine ⟨by decide, ?_, ?_⟩
  · show (pyInt? (pySlice ['C', 'V', '1', '2', '3'] 2 6)).map
      (fun v => (v : ℚ) / 100) = some ((123 : ℚ) / 100)
    have h1 : pySlice (['C', 'V', '1', '2', '3'] : List Char) 2 6 =
        ['1', '2', '3'] := by decide
    have h2 : pyInt? ['1', '2', '3'] = some 123 := by decide
    rw [h1, h2]
    simp
  · intro h
    have h1 : pySlice (['C', 'V', '1', '2', '3'] : List Char) 2 6 =
        ['1', '2', '3'] := by decide
    have h2 : pyInt? ['1', '2', '3'] = some 123 := by decide
    rw [show readVoltage? ['C', 'V', '1', '2', '3'] =
      (pyInt? (pySlice ['C', 'V', '1', '2', '3'] 2 6)).map
        (fun v => (v : ℚ) / 100) from rfl, h1, h2] at h
    simp at h

/-- Witness for C10 (amended): on the full-length response
`"120050005000"`-style list `['1','2','0','0','5','0','5','0','0','0']`,
the voltage field `s[2:6] = "0050"` parses to 50 (0.50 V) and the
current field `s[6:10] = "5000"` parses to 5000 (50.00 A). -/
theorem readVoltage_readCurrent_fixed_positions_witness :
    readVoltage? ['1', '2', '0', '0', '5', '0', '5', '0', '0', '0'] =
      some ((digitsVal (pySlice
        ['1', '2', '0', '0', '5', '0', '5', '0', '0', '0'] 2 6) : ℚ) / 100) ∧
    readCurrent? ['1', '2', '0', '0', '5', '0', '5', '0', '0', '0'] =
      some ((digitsVal (pySlice
        ['1', '2', '0', '0', '5', '0', '5', '0', '0', '0'] 6 10) : ℚ) / 100) :=
  ⟨(readVoltage_readCurrent_fixed_positions
      ['1', '2', '0', '0', '5', '0', '5', '0', '0', '0']).1
      (by decide) (by decide),
   (readVoltage_readCurrent_fixed_positions
      ['1', '2', '0', '0', '5', '0', '5', '0', '0', '0']).2.1
      (by decide) (by decide)⟩

end PowerSupply
